import Mathlib

/-!
Verification of the SkellySim ParaView utility scripts.

The development shallowly embeds the three Python files of the repository:

* `src/utils/paraview_utils/fiber_reader.py` — a programmable-source script
  that loads a trajectory frame and emits a `vtkPolyData` of polylines, one
  per fiber record;
* `src/utils/paraview_utils/body_reader.py` — a programmable-source script
  that loads a trajectory frame and emits a `vtkMultiBlockDataSet` of sphere
  surfaces, one per body record;
* `src/utils/init_paraview.py` — the setup script that instantiates the two
  programmable sources and wires a Tube and a Smooth filter to them.

Frames are modelled as ordered lists of fiber records (a node count
`n_nodes_` and a flat coordinate buffer `x_`) and body records (a flat
`position_` buffer); coordinates are rationals.  The VTK containers touched
by the scripts (`vtkPoints`, `vtkCellArray`, `vtkMultiBlockDataSet`) are
modelled by the traces of the insertion calls the scripts perform on them.
-/

namespace SkellySim

/-- Python `int()` applied to a (rational-valued) number: truncation toward
zero, as `int(time)` performs in both reader scripts. -/
def pyInt (t : ℚ) : Int := if 0 ≤ t then t.floor else t.ceil

/-- Python list slice `xs[low : low + len]`: it clamps at the ends of the
list and never raises. -/
def pySlice (xs : List ℚ) (low len : Nat) : List ℚ := (xs.drop low).take len

/-- Python list slice `xs[low:]`. -/
def pyDrop (xs : List ℚ) (low : Nat) : List ℚ := xs.drop low

/-- A bounds-checked view of the slice `xs[low : low + len]`: the `none`
branch is the out-of-range case, in which the plain slice would return
fewer than `len` elements. -/
def sliceChk (xs : List ℚ) (low len : Nat) : Option (List ℚ) :=
  if low + len ≤ xs.length then some ((xs.drop low).take len) else none

/-- A fiber record of a frame: field `fib["n_nodes_"]` and the flat
coordinate buffer `fib["x_"]`. -/
structure Fiber where
  n_nodes_ : Nat
  x_ : List ℚ
deriving DecidableEq

/-- A body record of a frame: the flat buffer `body["position_"]`. -/
structure Body where
  position_ : List ℚ
deriving DecidableEq

/-- A trajectory frame as `load_frame` returns it: the ordered collections
`frame["fibers"]` and `frame["bodies"]`. -/
structure Frame where
  fibers : List Fiber
  bodies : List Body
deriving DecidableEq

/-- Lines 6-9 of both reader scripts: `time` is the value of the
`UPDATE_TIME_STEP` key when the output-information object has it
(`outInfo.Has`/`outInfo.Get`), and `0` otherwise.  The optional key is
modelled by an `Option`. -/
def selectTime (updateTimeStep : Option ℚ) : ℚ :=
  match updateTimeStep with
  | some t => t
  | none => 0

/-- A `vtkCellArray` as driven by `InsertNextCell n` (close the current cell
and open a new one announcing `n` points) and `InsertCellPoint id` (append a
point id to the current cell). -/
structure CellArray where
  closed : List (Nat × List Nat)
  current : Option (Nat × List Nat)
deriving DecidableEq

def CellArray.empty : CellArray := ⟨[], none⟩

def CellArray.insertNextCell (ca : CellArray) (n : Nat) : CellArray :=
  ⟨ca.closed ++ ca.current.toList, some (n, [])⟩

def CellArray.insertCellPoint (ca : CellArray) (id : Nat) : CellArray :=
  ⟨ca.closed, ca.current.map fun c => (c.1, c.2 ++ [id])⟩

/-- The cells held by the array, in insertion order: each is the announced
point count paired with the inserted point ids. -/
def CellArray.cells (ca : CellArray) : List (Nat × List Nat) :=
  ca.closed ++ ca.current.toList

/-- The mutable state of the fiber_reader loop: the trace of
`pts.InsertPoint (id, coords)` calls, the cell array `lines`, the sizes
announced to the (otherwise unused) `vtkPolyLine` objects `pl`, and the
shared counter `offset`. -/
structure FiberState where
  pts : List (Nat × List ℚ)
  lines : CellArray
  pls : List Nat
  offset : Nat
deriving DecidableEq

/-- One iteration of the inner loop of fiber_reader (lines 22-26):
`low = 3 + i * 3`, `lines.InsertCellPoint(offset)`,
`pts.InsertPoint(offset, fib["x_"][low : low + 3])`, `offset += 1`. -/
def fiberInnerStep (x : List ℚ) (s : FiberState) (i : Nat) : FiberState :=
  let low := 3 + i * 3
  { s with
    lines := s.lines.insertCellPoint s.offset
    pts := s.pts ++ [(s.offset, pySlice x low 3)]
    offset := s.offset + 1 }

/-- The inner loop `for i in range(n)` of fiber_reader: iterations
`0, 1, ..., n-1` of `fiberInnerStep` in order. -/
def fiberInnerLoop (x : List ℚ) (n : Nat) (s : FiberState) : FiberState :=
  match n with
  | 0 => s
  | k + 1 => fiberInnerStep x (fiberInnerLoop x k s) k

/-- One iteration of the outer loop of fiber_reader (lines 16-26):
`lines.InsertNextCell(n_nodes)`, the `vtkPolyLine` construction with
`SetNumberOfIds(n_nodes)`, then the inner loop. -/
def fiberStep (s : FiberState) (fib : Fiber) : FiberState :=
  let n := fib.n_nodes_
  let s1 := { s with lines := s.lines.insertNextCell n, pls := s.pls ++ [n] }
  fiberInnerLoop fib.x_ n s1

/-- The whole fiber_reader loop, from the empty containers and `offset = 0`. -/
def fiberReader (fr : Frame) : FiberState :=
  fr.fibers.foldl fiberStep ⟨[], CellArray.empty, [], 0⟩

/-- The polygonal output assembled at lines 28-30 of fiber_reader:
`pd.SetPoints(pts)` and `pd.SetLines(lines)`.  Nothing else reaches the
output. -/
structure PolyData where
  points : List (Nat × List ℚ)
  lines : List (Nat × List Nat)
deriving DecidableEq

def fiberOutput (fr : Frame) : PolyData :=
  let s := fiberReader fr
  ⟨s.pts, s.lines.cells⟩

/-- The whole fiber_reader callback: select the time, truncate it with
`int`, call `load_frame` with the resulting index, and build the output. -/
def fiberReaderScript (load : Int → Frame) (updateTimeStep : Option ℚ) : PolyData :=
  fiberOutput (load (pyInt (selectTime updateTimeStep)))

/-- The surface produced by the `vtkSphereSource` configured at lines 17-22
of body_reader: radius `0.5`, the given center, theta and phi resolution
`32`. -/
structure Sphere where
  radius : ℚ
  center : List ℚ
  thetaResolution : Nat
  phiResolution : Nat
deriving DecidableEq

/-- The sphere body_reader emits for one body record: its center is the
slice `body["position_"][3:]` (line 16). -/
def sphereFor (b : Body) : Sphere :=
  ⟨1 / 2, pyDrop b.position_ 3, 32, 32⟩

/-- One iteration of the body_reader loop (lines 15-24): build the sphere and
`mb.SetBlock(offset, s.GetOutput())`, then `offset += 1`.  The multiblock
dataset is the trace of `SetBlock` calls (block index, block contents). -/
def bodyStep (acc : List (Nat × Sphere) × Nat) (b : Body) : List (Nat × Sphere) × Nat :=
  (acc.1 ++ [(acc.2, sphereFor b)], acc.2 + 1)

/-- The whole body_reader loop: the multiblock dataset shallow-copied into
the output at line 26. -/
def bodyReader (fr : Frame) : List (Nat × Sphere) :=
  (fr.bodies.foldl bodyStep ([], 0)).1

/-- The whole body_reader callback. -/
def bodyReaderScript (load : Int → Frame) (updateTimeStep : Option ℚ) :
    List (Nat × Sphere) :=
  bodyReader (load (pyInt (selectTime updateTimeStep)))

/-! ### Closed-form descriptions of the loops

`ptsFrom`, `cellsFrom` and `blocksFrom` give the traces the loops leave in
the containers when started at a given value of the `offset` counter; they
are proved equal to the loop embeddings below and are what the claim
theorems are phrased with. -/

/-- The `InsertPoint` calls one fiber performs when the shared counter
stands at `o`. -/
def fiberPts (o : Nat) (f : Fiber) : List (Nat × List ℚ) :=
  (List.range f.n_nodes_).map fun i => (o + i, pySlice f.x_ (3 + i * 3) 3)

/-- The cell one fiber announces and fills when the shared counter stands
at `o`. -/
def fiberCell (o : Nat) (f : Fiber) : Nat × List Nat :=
  (f.n_nodes_, (List.range f.n_nodes_).map fun i => o + i)

def ptsFrom (o : Nat) : List Fiber → List (Nat × List ℚ)
  | [] => []
  | f :: fs => fiberPts o f ++ ptsFrom (o + f.n_nodes_) fs

def cellsFrom (o : Nat) : List Fiber → List (Nat × List Nat)
  | [] => []
  | f :: fs => fiberCell o f :: cellsFrom (o + f.n_nodes_) fs

def totalNodes (fs : List Fiber) : Nat := (fs.map Fiber.n_nodes_).sum

def blocksFrom (o : Nat) : List Body → List (Nat × Sphere)
  | [] => []
  | b :: bs => (o, sphereFor b) :: blocksFrom (o + 1) bs

lemma fiberInnerLoop_eq (x : List ℚ) (k : Nat) (s : FiberState) :
    fiberInnerLoop x k s =
      { pts := s.pts ++ (List.range k).map fun i => (s.offset + i, pySlice x (3 + i * 3) 3)
        lines := ⟨s.lines.closed,
          s.lines.current.map fun c => (c.1, c.2 ++ (List.range k).map fun i => s.offset + i)⟩
        pls := s.pls
        offset := s.offset + k } := by
  induction k with
  | zero => simp [fiberInnerLoop]
  | succ k ih =>
    rw [fiberInnerLoop, ih]
    cases hc : s.lines.current with
    | none =>
      simp [fiberInnerStep, CellArray.insertCellPoint, hc, List.range_succ, Nat.add_assoc]
    | some c =>
      simp [fiberInnerStep, CellArray.insertCellPoint, hc, List.range_succ, Nat.add_assoc,
        List.append_assoc]

lemma fiberStep_eq (s : FiberState) (f : Fiber) :
    fiberStep s f =
      { pts := s.pts ++ fiberPts s.offset f
        lines := ⟨s.lines.cells, some (fiberCell s.offset f)⟩
        pls := s.pls ++ [f.n_nodes_]
        offset := s.offset + f.n_nodes_ } := by
  rw [fiberStep, fiberInnerLoop_eq]
  simp [CellArray.insertNextCell, CellArray.cells, fiberPts, fiberCell]

lemma foldl_fiberStep (fs : List Fiber) (s : FiberState) :
    (fs.foldl fiberStep s).pts = s.pts ++ ptsFrom s.offset fs ∧
    (fs.foldl fiberStep s).lines.cells = s.lines.cells ++ cellsFrom s.offset fs ∧
    (fs.foldl fiberStep s).pls = s.pls ++ fs.map Fiber.n_nodes_ ∧
    (fs.foldl fiberStep s).offset = s.offset + totalNodes fs := by
  induction fs generalizing s with
  | nil => simp [ptsFrom, cellsFrom, totalNodes]
  | cons f fs ih =>
    rw [List.foldl_cons]
    obtain ⟨h1, h2, h3, h4⟩ := ih (fiberStep s f)
    refine ⟨?_, ?_, ?_, ?_⟩
    · rw [h1, fiberStep_eq]
      simp [ptsFrom, List.append_assoc]
    · rw [h2, fiberStep_eq]
      simp [cellsFrom, CellArray.cells, List.append_assoc]
    · rw [h3, fiberStep_eq]
      simp
    · rw [h4, fiberStep_eq]
      simp [totalNodes, Nat.add_assoc]

lemma fiberOutput_points (fr : Frame) :
    (fiberOutput fr).points = ptsFrom 0 fr.fibers :=
  (foldl_fiberStep fr.fibers ⟨[], CellArray.empty, [], 0⟩).1

lemma fiberOutput_lines (fr : Frame) :
    (fiberOutput fr).lines = cellsFrom 0 fr.fibers :=
  (foldl_fiberStep fr.fibers ⟨[], CellArray.empty, [], 0⟩).2.1

lemma foldl_bodyStep (bs : List Body) (l : List (Nat × Sphere)) (o : Nat) :
    bs.foldl bodyStep (l, o) = (l ++ blocksFrom o bs, o + bs.length) := by
  induction bs generalizing l o with
  | nil => simp [blocksFrom]
  | cons b bs ih =>
    rw [List.foldl_cons, bodyStep, ih]
    simp [blocksFrom, Nat.add_assoc, Nat.add_comm 1 bs.length]

lemma bodyReader_eq (fr : Frame) : bodyReader fr = blocksFrom 0 fr.bodies := by
  rw [bodyReader, foldl_bodyStep]
  simp

lemma ptsFrom_length (o : Nat) (fs : List Fiber) :
    (ptsFrom o fs).length = totalNodes fs := by
  induction fs generalizing o with
  | nil => simp [ptsFrom, totalNodes]
  | cons f fs ih => simp [ptsFrom, fiberPts, totalNodes, ih]

lemma cellsFrom_length (o : Nat) (fs : List Fiber) :
    (cellsFrom o fs).length = fs.length := by
  induction fs generalizing o with
  | nil => rfl
  | cons f fs ih => simp [cellsFrom, ih]

lemma cellsFrom_get?_shape (o : Nat) (fs : List Fiber) (k : Nat) :
    ((cellsFrom o fs).get? k).map (fun c => (c.1, c.2.length)) =
      (fs.get? k).map fun f => (f.n_nodes_, f.n_nodes_) := by
  induction fs generalizing o k with
  | nil => rfl
  | cons f fs ih =>
    cases k with
    | zero => simp [cellsFrom, fiberCell]
    | succ k => simpa [cellsFrom] using ih (o + f.n_nodes_) k

lemma cellsFrom_flat_ids (o : Nat) (fs : List Fiber) :
    ((cellsFrom o fs).map Prod.snd).flatten =
      (List.range (totalNodes fs)).map (o + ·) := by
  induction fs generalizing o with
  | nil => simp [cellsFrom, totalNodes]
  | cons f fs ih =>
    simp only [cellsFrom, fiberCell, List.map_cons, List.flatten_cons, ih, totalNodes,
      List.map_cons, List.sum_cons, List.range_add, List.map_append, List.map_map]
    simp [Function.comp, Nat.add_assoc]

lemma ptsFrom_fst (o : Nat) (fs : List Fiber) :
    (ptsFrom o fs).map Prod.fst = (List.range (totalNodes fs)).map (o + ·) := by
  induction fs generalizing o with
  | nil => simp [ptsFrom, totalNodes]
  | cons f fs ih =>
    simp only [ptsFrom, fiberPts, List.map_append, List.map_map, ih, totalNodes,
      List.map_cons, List.sum_cons, List.range_add]
    simp [Function.comp, Nat.add_assoc]

lemma ptsFrom_snd (o : Nat) (fs : List Fiber) :
    (ptsFrom o fs).map Prod.snd =
      (fs.map fun f => (List.range f.n_nodes_).map fun i => pySlice f.x_ (3 + i * 3) 3).flatten := by
  induction fs generalizing o with
  | nil => simp [ptsFrom]
  | cons f fs ih =>
    simp [ptsFrom, fiberPts, List.map_append, List.map_map, ih, Function.comp]

lemma blocksFrom_length (o : Nat) (bs : List Body) :
    (blocksFrom o bs).length = bs.length := by
  induction bs generalizing o with
  | nil => rfl
  | cons b bs ih => simp [blocksFrom, ih]

lemma blocksFrom_get? (o : Nat) (bs : List Body) (k : Nat) :
    (blocksFrom o bs).get? k = (bs.get? k).map fun b => (o + k, sphereFor b) := by
  induction bs generalizing o k with
  | nil => rfl
  | cons b bs ih =>
    cases k with
    | zero => simp [blocksFrom]
    | succ k =>
      rw [blocksFrom, List.get?_cons_succ, List.get?_cons_succ, ih (o + 1) k]
      cases bs.get? k <;> simp [Nat.add_assoc, Nat.add_comm 1 k]

/-! ### Claim theorems -/

/-- C1.  In both reader callbacks the index passed to `load_frame` is
`int(t)` where `t` is the value of the `UPDATE_TIME_STEP` key of the
output-information object when that key is present, and `0` when the key is
absent. -/
theorem C1_load_frame_time_index :
    (∀ load t, fiberReaderScript load (some t) = fiberOutput (load (pyInt t)) ∧
      bodyReaderScript load (some t) = bodyReader (load (pyInt t))) ∧
    (∀ load, fiberReaderScript load none = fiberOutput (load 0) ∧
      bodyReaderScript load none = bodyReader (load 0)) := by
  have h0 : pyInt (selectTime none) = 0 := by decide
  refine ⟨fun load t => ⟨rfl, rfl⟩, fun load => ⟨?_, ?_⟩⟩
  · rw [fiberReaderScript, h0]
  · rw [bodyReaderScript, h0]

/-- C2.  For every frame the multiblock dataset built by body_reader has
exactly one block per body record, and block k holds the sphere generated
from the k-th body record: block order equals record order. -/
theorem C2_one_block_per_body (fr : Frame) :
    (bodyReader fr).length = fr.bodies.length ∧
    ∀ k, (bodyReader fr).get? k = (fr.bodies.get? k).map fun b => (k, sphereFor b) := by
  rw [bodyReader_eq]
  refine ⟨blocksFrom_length 0 fr.bodies, fun k => ?_⟩
  rw [blocksFrom_get?]
  cases fr.bodies.get? k <;> simp

/-- C3.  For every frame the polygonal output of fiber_reader has exactly
one line cell per fiber record, in record order; the cell of a fiber with
node count n announces n points and lists exactly n point ids; and the
total number of points inserted is the sum of the node counts. -/
theorem C3_one_cell_per_fiber (fr : Frame) :
    (fiberOutput fr).lines.length = fr.fibers.length ∧
    (∀ k, ((fiberOutput fr).lines.get? k).map (fun c => (c.1, c.2.length)) =
      (fr.fibers.get? k).map fun f => (f.n_nodes_, f.n_nodes_)) ∧
    (fiberOutput fr).points.length = (fr.fibers.map Fiber.n_nodes_).sum := by
  rw [fiberOutput_lines, fiberOutput_points]
  exact ⟨cellsFrom_length 0 fr.fibers, fun k => cellsFrom_get?_shape 0 fr.fibers k,
    ptsFrom_length 0 fr.fibers⟩

/-- C4, counterexample.  The claim says point i of a fiber's polyline is
`x[3 i .. 3 i + 2]`, the buffer read from its start.  For the fiber with
one node and buffer `[0, 1, 2, 10, 20, 30]` the emitted point is
`[10, 20, 30]` while the slice `x[0 : 3]` is `[0, 1, 2]`. -/
theorem C4_counterexample :
    (fiberOutput { fibers := [{ n_nodes_ := 1, x_ := [0, 1, 2, 10, 20, 30] }],
                   bodies := [] }).points = [(0, [(10 : ℚ), 20, 30])] ∧
    pySlice [0, 1, 2, 10, 20, 30] (3 * 0) 3 = [(0 : ℚ), 1, 2] ∧
    [(10 : ℚ), 20, 30] ≠ [(0 : ℚ), 1, 2] := by
  refine ⟨?_, ?_, ?_⟩ <;> decide

/-- C4, amended.  Point i of the polyline emitted for a fiber record is the
slice `x[3 + 3 i .. 5 + 3 i]` of its flat coordinate buffer: the buffer is
consumed from offset 3, its first three entries (the first stored node)
being skipped.  Stated for every frame: the inserted point coordinates,
grouped per fiber in record order, are exactly these slices. -/
theorem C4_points_skip_first_triple (fr : Frame) :
    (fiberOutput fr).points.map Prod.snd =
      (fr.fibers.map fun f =>
        (List.range f.n_nodes_).map fun i => pySlice f.x_ (3 + i * 3) 3).flatten := by
  rw [fiberOutput_points, ptsFrom_snd]

/-- C5, counterexample.  The claim says each sphere is centered at the full
position value of its body record.  For the body record with
`position_ = [0, 0, 0, 1, 2, 3]` the emitted sphere has center `[1, 2, 3]`,
not the full buffer. -/
theorem C5_counterexample :
    (bodyReader { fibers := [], bodies := [{ position_ := [0, 0, 0, 1, 2, 3] }] }) =
      [(0, { radius := 1 / 2, center := [(1 : ℚ), 2, 3],
             thetaResolution := 32, phiResolution := 32 })] ∧
    (sphereFor { position_ := [0, 0, 0, 1, 2, 3] }).center ≠
      ([0, 0, 0, 1, 2, 3] : List ℚ) := by
  exact ⟨rfl, by decide⟩

/-- C5, amended.  The sphere emitted for a body record is centered at the
slice `position_[3:]` of the record's position buffer, its first three
entries dropped; block k carries the sphere of the k-th record so centered. -/
theorem C5_sphere_center_drops_three (fr : Frame) (k : Nat) :
    ((bodyReader fr).get? k).map (fun blk => blk.2.center) =
      (fr.bodies.get? k).map fun b => pyDrop b.position_ 3 := by
  rw [bodyReader_eq, blocksFrom_get?]
  cases fr.bodies.get? k <;> simp [sphereFor]

/-- C7.  fiber_reader performs no check that record counts and buffer
lengths agree; under the precondition that a fiber record is
self-consistent — its buffer `x_` holds at least `3 + 3 * n_nodes_`
entries — every slice the script takes is fully in bounds: the checked
slice never takes its out-of-range branch and agrees with the clamping
Python slice, which returns a full 3-coordinate point. -/
theorem C7_slices_in_bounds (fib : Fiber)
    (h : 3 + 3 * fib.n_nodes_ ≤ fib.x_.length) (i : Nat) (hi : i < fib.n_nodes_) :
    sliceChk fib.x_ (3 + i * 3) 3 = some (pySlice fib.x_ (3 + i * 3) 3) ∧
    (pySlice fib.x_ (3 + i * 3) 3).length = 3 := by
  have hb : (3 + i * 3) + 3 ≤ fib.x_.length := by omega
  constructor
  · rw [sliceChk, if_pos hb, pySlice]
  · rw [pySlice, List.length_take, List.length_drop]
    omega

/-- C7, witness: the fiber with 2 nodes and a 9-entry buffer meets the
precondition, and its slice at i = 1 is in bounds. -/
theorem C7_witness :
    sliceChk [0, 1, 2, 3, 4, 5, 6, 7, 8] (3 + 1 * 3) 3 =
      some (pySlice [0, 1, 2, 3, 4, 5, 6, 7, 8] (3 + 1 * 3) 3) ∧
    (pySlice ([0, 1, 2, 3, 4, 5, 6, 7, 8] : List ℚ) (3 + 1 * 3) 3).length = 3 :=
  C7_slices_in_bounds ⟨2, [0, 1, 2, 3, 4, 5, 6, 7, 8]⟩ (by decide) 1 (by decide)

lemma cellsFrom_mem_run (o : Nat) (fs : List Fiber) :
    ∀ c ∈ cellsFrom o fs, ∃ o2, c.2 = (List.range c.1).map (o2 + ·) := by
  induction fs generalizing o with
  | nil => intro c hc; cases hc
  | cons f fs ih =>
    intro c hc
    rw [cellsFrom] at hc
    rcases List.mem_cons.mp hc with h | h
    · subst h
      exact ⟨o, rfl⟩
    · exact ih (o + f.n_nodes_) c h

/-- C9.  Invariant of fiber_reader's output construction: the point ids
written into the line cells, read in insertion order, are exactly
0, 1, ..., N-1 where N is the number of points inserted; the i-th point
inserted carries id i; each cell holds a consecutive run of ids; and every
id appearing in a cell is the id of a point of the output. -/
theorem C9_cell_ids_match_points (fr : Frame) :
    ((fiberOutput fr).lines.map Prod.snd).flatten =
      List.range (fiberOutput fr).points.length ∧
    (fiberOutput fr).points.map Prod.fst =
      List.range (fiberOutput fr).points.length ∧
    (∀ c ∈ (fiberOutput fr).lines, ∃ o, c.2 = (List.range c.1).map (o + ·)) ∧
    (∀ id ∈ ((fiberOutput fr).lines.map Prod.snd).flatten,
      ∃ p, (id, p) ∈ (fiberOutput fr).points) := by
  have hN : (fiberOutput fr).points.length = totalNodes fr.fibers := by
    rw [fiberOutput_points, ptsFrom_length]
  have hflat : ((fiberOutput fr).lines.map Prod.snd).flatten =
      List.range (fiberOutput fr).points.length := by
    rw [fiberOutput_lines, cellsFrom_flat_ids, hN]
    simp
  have hfst : (fiberOutput fr).points.map Prod.fst =
      List.range (fiberOutput fr).points.length := by
    rw [fiberOutput_points, ptsFrom_fst, ptsFrom_length]
    simp
  refine ⟨hflat, hfst, ?_, ?_⟩
  · rw [fiberOutput_lines]
    exact cellsFrom_mem_run 0 fr.fibers
  · intro id hid
    have hm : id ∈ (fiberOutput fr).points.map Prod.fst := by
      rw [hfst, ← hflat]
      exact hid
    rcases List.mem_map.mp hm with ⟨pr, hpr, hfsteq⟩
    refine ⟨pr.2, ?_⟩
    have hpr2 : (id, pr.2) = pr := by rw [← hfsteq]
    rw [hpr2]
    exact hpr

/-- fiber_reader with its lines 19-20 removed: identical to `fiberStep`
except that no `vtkPolyLine` is constructed, so nothing is recorded in
`pls`. -/
def fiberStepNoPl (s : FiberState) (fib : Fiber) : FiberState :=
  let n := fib.n_nodes_
  let s1 := { s with lines := s.lines.insertNextCell n }
  fiberInnerLoop fib.x_ n s1

def fiberReaderNoPl (fr : Frame) : FiberState :=
  fr.fibers.foldl fiberStepNoPl ⟨[], CellArray.empty, [], 0⟩

def fiberOutputNoPl (fr : Frame) : PolyData :=
  let s := fiberReaderNoPl fr
  ⟨s.pts, s.lines.cells⟩

lemma fiberStepNoPl_eq (s : FiberState) (f : Fiber) :
    fiberStepNoPl s f =
      { pts := s.pts ++ fiberPts s.offset f
        lines := ⟨s.lines.cells, some (fiberCell s.offset f)⟩
        pls := s.pls
        offset := s.offset + f.n_nodes_ } := by
  rw [fiberStepNoPl, fiberInnerLoop_eq]
  simp [CellArray.insertNextCell, CellArray.cells, fiberPts, fiberCell]

lemma foldl_fiberStepNoPl (fs : List Fiber) (s : FiberState) :
    (fs.foldl fiberStepNoPl s).pts = s.pts ++ ptsFrom s.offset fs ∧
    (fs.foldl fiberStepNoPl s).lines.cells = s.lines.cells ++ cellsFrom s.offset fs ∧
    (fs.foldl fiberStepNoPl s).offset = s.offset + totalNodes fs := by
  induction fs generalizing s with
  | nil => simp [ptsFrom, cellsFrom, totalNodes]
  | cons f fs ih =>
    rw [List.foldl_cons]
    obtain ⟨h1, h2, h3⟩ := ih (fiberStepNoPl s f)
    refine ⟨?_, ?_, ?_⟩
    · rw [h1, fiberStepNoPl_eq]
      simp [ptsFrom, List.append_assoc]
    · rw [h2, fiberStepNoPl_eq]
      simp [cellsFrom, CellArray.cells, List.append_assoc]
    · rw [h3, fiberStepNoPl_eq]
      simp [totalNodes, Nat.add_assoc]

/-- C10.  The `vtkPolyLine` object built for each fiber never reaches the
output: the polygonal data of fiber_reader equals that of the same script
with the two pl lines removed, the line connectivity coming solely from the
cell array built with InsertNextCell and InsertCellPoint. -/
theorem C10_polyline_objects_unused (fr : Frame) :
    fiberOutput fr = fiberOutputNoPl fr := by
  obtain ⟨a1, a2, -, -⟩ := foldl_fiberStep fr.fibers ⟨[], CellArray.empty, [], 0⟩
  obtain ⟨b1, b2, -⟩ := foldl_fiberStepNoPl fr.fibers ⟨[], CellArray.empty, [], 0⟩
  simp only [fiberOutput, fiberOutputNoPl, fiberReader, fiberReaderNoPl]
  rw [a1, a2, b1, b2]

/-! ### Fault propagation (C6)

The reader scripts contain no try/except.  The fallible operations each
script performs are the call to `load_frame` and the record field accesses
(`fib["n_nodes_"]`, `fib["x_"]`, `body["position_"]`); both are modelled in
the `Option` monad, `none` being the unhandled fault that propagates to the
host. -/

/-- A fiber record whose field lookups may fail (a missing key raises). -/
structure RawFiber where
  n_nodes_ : Option Nat
  x_ : Option (List ℚ)

/-- A body record whose field lookup may fail. -/
structure RawBody where
  position_ : Option (List ℚ)

structure RawFrame where
  fibers : List RawFiber
  bodies : List RawBody

/-- One inner-loop iteration over a raw record: `fib["x_"]` is looked up
inside the loop body, so it is touched only when the loop runs. -/
def fiberInnerStepE (fib : RawFiber) (s : FiberState) (i : Nat) : Option FiberState := do
  let x ← fib.x_
  pure (fiberInnerStep x s i)

def fiberInnerLoopE (fib : RawFiber) (n : Nat) (s : FiberState) : Option FiberState :=
  match n with
  | 0 => pure s
  | k + 1 => do
    let s2 ← fiberInnerLoopE fib k s
    fiberInnerStepE fib s2 k

/-- One outer-loop iteration of fiber_reader over a raw record:
`fib["n_nodes_"]` is looked up first. -/
def fiberStepE (s : FiberState) (fib : RawFiber) : Option FiberState := do
  let n ← fib.n_nodes_
  fiberInnerLoopE fib n { s with lines := s.lines.insertNextCell n, pls := s.pls ++ [n] }

def foldlE : List RawFiber → FiberState → Option FiberState
  | [], s => pure s
  | f :: fs, s => do
    let s2 ← fiberStepE s f
    foldlE fs s2

/-- The whole fiber_reader callback over a possibly-failing `load_frame`
result: the only outcomes are the propagated fault and the fully built
output, with no fallback. -/
def fiberReaderE (loaded : Option RawFrame) : Option PolyData := do
  let fr ← loaded
  let s ← foldlE fr.fibers ⟨[], CellArray.empty, [], 0⟩
  pure ⟨s.pts, s.lines.cells⟩

/-- A fiber record on which the loop faults: `n_nodes_` is missing, or a
node must be read and `x_` is missing. -/
def RawFiber.fails (fib : RawFiber) : Prop :=
  fib.n_nodes_ = none ∨ ∃ n, fib.n_nodes_ = some n ∧ 0 < n ∧ fib.x_ = none

def bodyStepE (acc : List (Nat × Sphere) × Nat) (b : RawBody) :
    Option (List (Nat × Sphere) × Nat) := do
  let p ← b.position_
  pure (acc.1 ++ [(acc.2, sphereFor ⟨p⟩)], acc.2 + 1)

def bodyFoldE : List RawBody → List (Nat × Sphere) × Nat →
    Option (List (Nat × Sphere) × Nat)
  | [], acc => pure acc
  | b :: bs, acc => do
    let acc2 ← bodyStepE acc b
    bodyFoldE bs acc2

/-- The whole body_reader callback over a possibly-failing `load_frame`
result. -/
def bodyReaderE (loaded : Option RawFrame) : Option (List (Nat × Sphere)) := do
  let fr ← loaded
  let acc ← bodyFoldE fr.bodies ([], 0)
  pure acc.1

lemma fiberInnerLoopE_some (fib : RawFiber) (x : List ℚ) (hx : fib.x_ = some x)
    (n : Nat) (s : FiberState) :
    fiberInnerLoopE fib n s = some (fiberInnerLoop x n s) := by
  induction n with
  | zero => rfl
  | succ k ih =>
    rw [fiberInnerLoopE, ih]
    simp [fiberInnerStepE, hx, fiberInnerLoop]

lemma fiberInnerLoopE_none (fib : RawFiber) (hx : fib.x_ = none)
    (n : Nat) (hn : 0 < n) (s : FiberState) :
    fiberInnerLoopE fib n s = none := by
  induction n with
  | zero => cases hn
  | succ k ih =>
    rw [fiberInnerLoopE]
    cases k with
    | zero => simp [fiberInnerLoopE, fiberInnerStepE, hx]
    | succ m => rw [ih (Nat.succ_pos m)]; rfl

lemma fiberStepE_none_iff (s : FiberState) (fib : RawFiber) :
    fiberStepE s fib = none ↔ fib.fails := by
  cases hn : fib.n_nodes_ with
  | none => simp [fiberStepE, hn, RawFiber.fails]
  | some n =>
    cases hx : fib.x_ with
    | none =>
      cases n with
      | zero => simp [fiberStepE, hn, fiberInnerLoopE, RawFiber.fails, hx]
      | succ m =>
        rw [fiberStepE]
        simp only [hn, Option.bind_eq_bind, Option.some_bind]
        rw [fiberInnerLoopE_none fib hx (m + 1) (Nat.succ_pos m)]
        simp [RawFiber.fails, hn, hx]
    | some x =>
      rw [fiberStepE]
      simp only [hn, Option.bind_eq_bind, Option.some_bind]
      rw [fiberInnerLoopE_some fib x hx]
      simp [RawFiber.fails, hn, hx]

lemma foldlE_none_iff (fs : List RawFiber) (s : FiberState) :
    foldlE fs s = none ↔ ∃ f ∈ fs, f.fails := by
  induction fs generalizing s with
  | nil => simp [foldlE]
  | cons f fs ih =>
    rw [foldlE]
    cases hstep : fiberStepE s f with
    | none =>
      have hf : f.fails := (fiberStepE_none_iff s f).mp hstep
      simp [hf]
    | some s2 =>
      have hf : ¬ f.fails := fun hc => by
        rw [(fiberStepE_none_iff s f).mpr hc] at hstep
        exact Option.noConfusion hstep
      simp [ih s2, hf]

lemma bodyFoldE_none_iff (bs : List RawBody) (acc : List (Nat × Sphere) × Nat) :
    bodyFoldE bs acc = none ↔ ∃ b ∈ bs, b.position_ = none := by
  induction bs generalizing acc with
  | nil => simp [bodyFoldE]
  | cons b bs ih =>
    rw [bodyFoldE]
    cases hp : b.position_ with
    | none => simp [bodyStepE, hp]
    | some p => simp [bodyStepE, hp, ih]

/-- C6.  Neither reader has an error-handling branch: a reader callback
propagates a fault (returns `none`) exactly when loading the frame fails or
a record field access it performs fails, and in that case it performs no
recovery and defines no fallback output — `none` is its entire result. -/
theorem C6_fault_propagation (loaded : Option RawFrame) :
    (fiberReaderE loaded = none ↔
      loaded = none ∨ ∃ fr, loaded = some fr ∧ ∃ fib ∈ fr.fibers, fib.fails) ∧
    (bodyReaderE loaded = none ↔
      loaded = none ∨ ∃ fr, loaded = some fr ∧ ∃ b ∈ fr.bodies, b.position_ = none) := by
  cases loaded with
  | none => simp [fiberReaderE, bodyReaderE]
  | some fr =>
    have hf : fiberReaderE (some fr) = none ↔
        foldlE fr.fibers ⟨[], CellArray.empty, [], 0⟩ = none := by
      cases h : foldlE fr.fibers ⟨[], CellArray.empty, [], 0⟩ <;>
        simp [fiberReaderE, h]
    have hb : bodyReaderE (some fr) = none ↔ bodyFoldE fr.bodies ([], 0) = none := by
      cases h : bodyFoldE fr.bodies ([], 0) <;> simp [bodyReaderE, h]
    rw [hf, hb, foldlE_none_iff, bodyFoldE_none_iff]
    simp

/-! ### The setup script init_paraview.py (C8)

The script is straight-line host-API calls; it is embedded as a state of
registered sources, filters, shown objects and display properties, built by
one transformer per call, in source order. -/

inductive DataSetType
  | vtkPolyData
  | vtkMultiblockDataSet
deriving DecidableEq

/-- The callback scripts read from disk and injected as the sources'
`Script` bodies. -/
inductive SourceScript
  | fiberReaderSrc
  | bodyReaderSrc
deriving DecidableEq

/-- The scripts injected as `ScriptRequestInformation` (their files are
referenced by the setup script). -/
inductive RequestScript
  | fiberReaderRequestSrc
  | bodyReaderRequestSrc
deriving DecidableEq

structure ProgrammableSourceCfg where
  pyScript : SourceScript
  requestInformation : RequestScript
  outputDataSetType : DataSetType
  guiName : String
deriving DecidableEq

inductive FilterKind
  | tube
  | smooth
deriving DecidableEq

/-- A filter: its kind, the handle of its input, and the attributes the
setup script may assign after creation. -/
structure FilterCfg where
  kind : FilterKind
  input : Nat
  radius : Option ℚ
  capping : Option Nat
  numberOfSides : Option Nat
deriving DecidableEq

structure PVState where
  sources : List ProgrammableSourceCfg
  filters : List FilterCfg
  shown : List Nat
  displayProps : List (Nat × (ℚ × ℚ × ℚ))
deriving DecidableEq

def PVState.empty : PVState := ⟨[], [], [], []⟩

/-- `ProgrammableSource(...)`: registers the source and returns its handle,
the index in creation order. -/
def PVState.addSource (st : PVState) (cfg : ProgrammableSourceCfg) : PVState × Nat :=
  ({ st with sources := st.sources ++ [cfg] }, st.sources.length)

/-- `Tube(input)` / `Smooth(input)`: registers a filter on the given source
handle and returns the filter's handle. -/
def PVState.addFilter (st : PVState) (kind : FilterKind) (input : Nat) : PVState × Nat :=
  ({ st with filters := st.filters ++ [⟨kind, input, none, none, none⟩] },
    st.filters.length)

def modifyAt (g : FilterCfg → FilterCfg) : Nat → List FilterCfg → List FilterCfg
  | _, [] => []
  | 0, c :: cs => g c :: cs
  | k + 1, c :: cs => c :: modifyAt g k cs

/-- An attribute assignment such as `tf.Radius = 0.025` on the filter with
the given handle. -/
def PVState.setFilter (st : PVState) (k : Nat) (g : FilterCfg → FilterCfg) : PVState :=
  { st with filters := modifyAt g k st.filters }

/-- `Show(f)`: the object becomes the most recently shown one. -/
def PVState.showItem (st : PVState) (k : Nat) : PVState :=
  { st with shown := st.shown ++ [k] }

/-- `SetDisplayProperties(DiffuseColor=c)`: records the display properties
of the most recently shown object. -/
def PVState.setDisplayProperties (st : PVState) (c : ℚ × ℚ × ℚ) : PVState :=
  match st.shown.getLast? with
  | some k => { st with displayProps := st.displayProps ++ [(k, c)] }
  | none => st

/-- The whole of init_paraview.py, call by call and in source order. -/
def initParaview : PVState :=
  let p1 := PVState.empty.addSource
    ⟨SourceScript.fiberReaderSrc, RequestScript.fiberReaderRequestSrc,
      DataSetType.vtkPolyData, "Fibers"⟩
  let p2 := p1.1.addFilter FilterKind.tube p1.2
  let st3 := p2.1.setFilter p2.2 fun c => { c with radius := some (1 / 40) }
  let st4 := st3.setFilter p2.2 fun c => { c with capping := some 1 }
  let st5 := st4.setFilter p2.2 fun c => { c with numberOfSides := some 10 }
  let st6 := st5.showItem p2.2
  let st7 := st6.setDisplayProperties (0 / 255, 255 / 255, 127 / 255)
  let p3 := st7.addSource
    ⟨SourceScript.bodyReaderSrc, RequestScript.bodyReaderRequestSrc,
      DataSetType.vtkMultiblockDataSet, "Bodies"⟩
  let p4 := p3.1.addFilter FilterKind.smooth p3.2
  let st8 := p4.1.showItem p4.2
  st8.setDisplayProperties (143 / 255, 255 / 255, 246 / 255)

/-- C8.  The setup script instantiates exactly two programmable sources —
first "Fibers" with output type vtkPolyData, then "Bodies" with output type
vtkMultiblockDataSet — and exactly two filters — a Tube whose input is the
Fibers source (handle 0) and a Smooth whose input is the Bodies source
(handle 1) — and sets display properties once for each of the two
filters. -/
theorem C8_pipeline_shape :
    initParaview.sources =
      [⟨SourceScript.fiberReaderSrc, RequestScript.fiberReaderRequestSrc,
        DataSetType.vtkPolyData, "Fibers"⟩,
       ⟨SourceScript.bodyReaderSrc, RequestScript.bodyReaderRequestSrc,
        DataSetType.vtkMultiblockDataSet, "Bodies"⟩] ∧
    initParaview.filters.length = 2 ∧
    (initParaview.filters.get? 0).map (fun c => (c.kind, c.input)) =
      some (FilterKind.tube, 0) ∧
    (initParaview.filters.get? 1).map (fun c => (c.kind, c.input)) =
      some (FilterKind.smooth, 1) ∧
    initParaview.displayProps =
      [(0, (0 / 255, 255 / 255, 127 / 255)),
       (1, (143 / 255, 255 / 255, 246 / 255))] :=
  ⟨rfl, rfl, rfl, rfl, rfl⟩

end SkellySim
